import Mathlib

/-
Verification of QShare's `server.py` against its specification.

The Python functions are shallowly embedded as Lean definitions. External
effects are passed in explicitly as values: the shared directory's state is a
list of entry names, subprocess invocations are functions from the command
string to a result record, and the outbound-socket address detection is an
`Except` value (`.error` standing for the raised `OSError`).
-/

namespace QShare

/-- Python whitespace as `str.split()` / `str.strip()` see it (ASCII range):
space, tab, line feed, carriage return, vertical tab, form feed. -/
def pyIsSpace (c : Char) : Bool :=
  c = ' ' || c = '\t' || c = '\n' || c = '\r' || c = '\x0b' || c = '\x0c'

/-- Python `s.strip()`: remove leading and trailing whitespace. -/
def pyStrip (s : String) : String :=
  ⟨((s.data.dropWhile pyIsSpace).reverse.dropWhile pyIsSpace).reverse⟩

/-- Python `s.strip(chars)`: remove leading and trailing characters that occur
in `cs`. -/
def pyStripChars (cs : List Char) (s : String) : String :=
  ⟨((s.data.dropWhile (cs.contains ·)).reverse.dropWhile (cs.contains ·)).reverse⟩

/-- Python `os.path.basename` on POSIX: the suffix after the last slash,
`p[p.rfind('/') + 1 :]`. -/
def basename (p : String) : String :=
  ⟨(p.data.reverse.takeWhile (fun c => c ≠ '/')).reverse⟩

/-- Names that a regular file directly inside the shared directory can have:
a single path component (no slash), and none of the names the OS resolves to
a directory rather than a regular file (`""` is the directory itself once
joined, `"."` and `".."` resolve to directories). -/
def plainEntryName (n : String) : Bool :=
  !n.data.contains '/' && n ≠ "" && n ≠ "." && n ≠ ".."

/-- Shared directory state seen by the download handler: the names of the
regular files directly inside `SHARED_DIR`. For a slash-free name `n`,
`os.path.isfile(os.path.join(SHARED_DIR, n))` holds exactly when `n` is one
of these names; the well-formedness field records the OS facts that such a
name is a single component and that `""`, `"."` and `".."` never denote a
regular file. -/
structure SharedDir where
  files : List String
  wf : ∀ n ∈ files, plainEntryName n = true

/-- Result of the `/download/<path:filename>` handler: stream the regular
file `name` from `SHARED_DIR` as an attachment, or abort with HTTP 404. -/
inductive DownloadResult
  | stream (name : String)
  | notFound
  deriving DecidableEq

/-- Embedding of `download` (server.py): `safe_name = os.path.basename(filename)`;
the path `os.path.join(SHARED_DIR, safe_name)` is checked with
`os.path.isfile` and on failure the handler aborts with 404, otherwise it
streams `safe_name` out of `SHARED_DIR`. -/
def download (fs : SharedDir) (filename : String) : DownloadResult :=
  let safe_name := basename filename
  if fs.files.contains safe_name then .stream safe_name else .notFound

theorem mem_of_contains {l : List String} {a : String}
    (h : l.contains a = true) : a ∈ l := by
  simpa using h

theorem contains_of_mem {l : List String} {a : String}
    (h : a ∈ l) : l.contains a = true := by
  simpa using h

/-- C1: every download request is reduced to its final path component and
resolved against the shared directory; the handler either streams a regular
file directly inside the shared directory (the streamed name is a single
slash-free component, not `""`, `"."` or `".."`, so the resolved path cannot
leave the directory) or fails with 404. -/
theorem download_traversal_safe (fs : SharedDir) (s : String) :
    (∀ n, download fs s = .stream n →
      n = basename s ∧ n ∈ fs.files ∧ plainEntryName n = true) ∧
    (fs.files.contains (basename s) = false → download fs s = .notFound) := by
  constructor
  · intro n h
    unfold download at h
    by_cases hc : fs.files.contains (basename s) = true
    · simp only [hc, if_pos] at h
      cases h
      exact ⟨rfl, mem_of_contains hc, fs.wf _ (mem_of_contains hc)⟩
    · simp only [hc, if_neg, reduceIte] at h
      exact absurd h (by simp [hc])
  · intro hc
    unfold download
    rw [if_neg]
    simpa using hc

/-- Index of the last occurrence of `c` in `l` (Python `str.rfind`), if any. -/
def lastIdxOf (c : Char) : List Char → Option Nat
  | [] => none
  | x :: xs =>
    match lastIdxOf c xs with
    | some i => some (i + 1)
    | none => if x = c then some 0 else none

/-- Python `os.path.splitext` on POSIX: the extension starts at the last dot,
provided that dot lies in the final path component and at least one character
of that component before it is not a dot (leading dots never start an
extension). -/
def splitext (p : String) : String × String :=
  let l := p.data
  match lastIdxOf '.' l with
  | none => (p, "")
  | some dotIdx =>
    let fnameStart : Nat :=
      match lastIdxOf '/' l with
      | none => 0
      | some sepIdx => sepIdx + 1
    if fnameStart ≤ dotIdx then
      if ((l.drop fnameStart).take (dotIdx - fnameStart)).any (fun c => c ≠ '.') then
        (⟨l.take dotIdx⟩, ⟨l.drop dotIdx⟩)
      else (p, "")
    else (p, "")

/-- Decimal digit character, `chr(48 + d)`. -/
def digitChar (d : Nat) : Char := Char.ofNat (48 + d)

/-- Decimal digits of `n`, most significant first; any `fuel > n` is enough
for the recursion to finish. -/
def natDigitsAux : Nat → Nat → List Char
  | 0, _ => []
  | fuel + 1, n =>
    if n < 10 then [digitChar n]
    else natDigitsAux fuel (n / 10) ++ [digitChar (n % 10)]

/-- Decimal rendering of a natural number, as a Python f-string writes a
nonnegative `int`. -/
def natStr (n : Nat) : String := ⟨natDigitsAux (n + 1) n⟩

/-- Accumulator step reading decimal digits back into a number. -/
def decimalStep (a : Nat) (c : Char) : Nat := 10 * a + (c.toNat - 48)

theorem digitChar_toNat {d : Nat} (h : d < 10) : (digitChar d).toNat = 48 + d := by
  interval_cases d <;> decide

theorem natDigitsAux_val : ∀ (fuel n : Nat), n < fuel →
    (natDigitsAux fuel n).foldl decimalStep 0 = n := by
  intro fuel
  induction fuel with
  | zero => intro n h; omega
  | succ f ih =>
    intro n h
    unfold natDigitsAux
    by_cases h10 : n < 10
    · simp [h10, decimalStep, digitChar_toNat h10]
    · rw [if_neg h10, List.foldl_append]
      have hdiv : n / 10 < f := by
        have : n / 10 < n := Nat.div_lt_self (by omega) (by omega)
        omega
      rw [ih _ hdiv]
      simp only [List.foldl_cons, List.foldl_nil, decimalStep,
        digitChar_toNat (Nat.mod_lt n (by omega))]
      omega

theorem natStr_injective : Function.Injective natStr := by
  intro m n h
  have hd : natDigitsAux (m + 1) m = natDigitsAux (n + 1) n :=
    congrArg String.data h
  have hv := congrArg (List.foldl decimalStep 0) hd
  rwa [natDigitsAux_val _ _ (Nat.lt_succ_self m),
    natDigitsAux_val _ _ (Nat.lt_succ_self n)] at hv

/-- Collision candidate name, the Python f-string `f"{base} ({i}){ext}"`. -/
def collisionCandidate (base ext : String) (i : Nat) : String :=
  base ++ " (" ++ natStr i ++ ")" ++ ext

theorem collisionCandidate_inj {base ext : String} {i j : Nat}
    (h : collisionCandidate base ext i = collisionCandidate base ext j) :
    i = j := by
  unfold collisionCandidate at h
  have h' := congrArg String.data h
  simp only [String.data_append, List.append_assoc] at h'
  have h2 := List.append_cancel_left (List.append_cancel_left h')
  have h3 := List.append_cancel_right h2
  exact natStr_injective (String.ext h3)

/-- Embedding of the collision loop in `upload` (server.py): starting at
`i = 1`, try `f"{base} ({i}){ext}"` until a name for which `taken` is false
is found. `fuel` bounds the unrolling; `none` models a non-terminating run
of the Python `while True` loop (shown unreachable below). -/
def collideLoop (taken : String → Bool) (base ext : String) :
    Nat → Nat → Option String
  | _, 0 => none
  | i, fuel + 1 =>
    let candidate := collisionCandidate base ext i
    if taken candidate then collideLoop taken base ext (i + 1) fuel
    else some candidate

/-- Embedding of the saved-name selection of `upload` (server.py): if the
sanitized `filename` does not already exist in the shared directory it is
used as is; otherwise `base, ext = os.path.splitext(filename)` and the
candidates `f"{base} ({i}){ext}"`, `i = 1, 2, …`, are tried until one does
not exist. `existing` lists the names in the shared directory for which
`os.path.exists(os.path.join(SHARED_DIR, name))` holds (files and
directories alike). Fuel `existing.length + 1` always suffices
(`pick_name_isSome`), so `none` never occurs. -/
def pick_name (existing : List String) (filename : String) : Option String :=
  if existing.contains filename then
    let be := splitext filename
    collideLoop (fun c => existing.contains c) be.1 be.2 1 (existing.length + 1)
  else some filename

theorem collideLoop_spec {taken : String → Bool} {base ext : String} :
    ∀ (fuel i : Nat) (c : String), collideLoop taken base ext i fuel = some c →
      ∃ k, k < fuel ∧ c = collisionCandidate base ext (i + k) ∧
        taken c = false ∧
        ∀ j, j < k → taken (collisionCandidate base ext (i + j)) = true := by
  intro fuel
  induction fuel with
  | zero => intro i c h; simp [collideLoop] at h
  | succ f ih =>
    intro i c h
    unfold collideLoop at h
    by_cases ht : taken (collisionCandidate base ext i) = true
    · simp only [ht, if_pos] at h
      obtain ⟨k, hk, hc, hfree, hbelow⟩ := ih (i + 1) c h
      refine ⟨k + 1, by omega, by rw [hc]; ring_nf, hfree, ?_⟩
      intro j hj
      cases j with
      | zero => simpa using ht
      | succ j' =>
        have := hbelow j' (by omega)
        have harith : i + 1 + j' = i + (j' + 1) := by omega
        rwa [harith] at this
    · have ht' : taken (collisionCandidate base ext i) = false := by
        simpa using ht
      simp only [ht', Bool.false_eq_true, if_neg, reduceIte] at h
      cases h
      exact ⟨0, by omega, by rw [Nat.add_zero], ht', by omega⟩

theorem collideLoop_total {taken : String → Bool} {base ext : String} :
    ∀ (fuel i : Nat),
      (∃ k, k < fuel ∧ taken (collisionCandidate base ext (i + k)) = false) →
      (collideLoop taken base ext i fuel).isSome = true := by
  intro fuel
  induction fuel with
  | zero => intro i h; obtain ⟨k, hk, _⟩ := h; omega
  | succ f ih =>
    intro i h
    obtain ⟨k, hk, hfree⟩ := h
    unfold collideLoop
    by_cases ht : taken (collisionCandidate base ext i) = true
    · simp only [ht, if_pos]
      apply ih
      have hk0 : k ≠ 0 := by
        intro h0
        rw [h0, Nat.add_zero] at hfree
        rw [hfree] at ht
        cases ht
      refine ⟨k - 1, by omega, ?_⟩
      have harith : i + 1 + (k - 1) = i + k := by omega
      rwa [harith]
    · simp [ht]

theorem exists_free_candidate (existing : List String) (base ext : String) :
    ∃ k, k < existing.length + 1 ∧
      existing.contains (collisionCandidate base ext (1 + k)) = false := by
  by_contra hall
  push_neg at hall
  have htaken : ∀ k, k < existing.length + 1 →
      collisionCandidate base ext (1 + k) ∈ existing := by
    intro k hk
    have := hall k hk
    have hb : existing.contains (collisionCandidate base ext (1 + k)) = true := by
      cases hx : existing.contains (collisionCandidate base ext (1 + k)) with
      | false => exact absurd hx this
      | true => rfl
    exact mem_of_contains hb
  have hsub : ((List.range' 1 (existing.length + 1)).map
      (collisionCandidate base ext)) ⊆ existing := by
    intro x hx
    obtain ⟨m, hm, hxm⟩ := List.mem_map.mp hx
    obtain ⟨idx, hidx, hmeq⟩ := List.mem_range'.mp hm
    subst hxm
    have : m = 1 + idx := by omega
    rw [this]
    exact htaken idx hidx
  have hnd : ((List.range' 1 (existing.length + 1)).map
      (collisionCandidate base ext)).Nodup :=
    (List.nodup_range' 1 (existing.length + 1)).map
      (fun a b hab => collisionCandidate_inj hab)
  have hle := (hnd.subperm hsub).length_le
  simp only [List.length_map, List.length_range'] at hle
  omega

theorem pick_name_isSome (existing : List String) (filename : String) :
    (pick_name existing filename).isSome = true := by
  unfold pick_name
  by_cases hc : existing.contains filename = true
  · simp only [hc, if_pos]
    exact collideLoop_total _ _ (exists_free_candidate existing _ _)
  · have hmem : filename ∉ existing := by simpa using hc
    simp [hmem]

theorem pick_name_collision_char {existing : List String} {filename : String}
    (hc : existing.contains filename = true) :
    ∃ i, 1 ≤ i ∧
      pick_name existing filename =
        some (collisionCandidate (splitext filename).1 (splitext filename).2 i) ∧
      existing.contains
        (collisionCandidate (splitext filename).1 (splitext filename).2 i) = false ∧
      ∀ j, 1 ≤ j → j < i →
        existing.contains
          (collisionCandidate (splitext filename).1 (splitext filename).2 j) = true := by
  obtain ⟨c, hcsome⟩ := Option.isSome_iff_exists.mp (pick_name_isSome existing filename)
  have hloop : collideLoop (fun c => existing.contains c)
      (splitext filename).1 (splitext filename).2 1 (existing.length + 1) = some c := by
    have := hcsome
    unfold pick_name at this
    rwa [if_pos (by simpa using hc)] at this
  obtain ⟨k, _, hcand, hfree, hbelow⟩ := collideLoop_spec _ _ c hloop
  refine ⟨1 + k, by omega, ?_, by rw [← hcand]; exact hfree, ?_⟩
  · rw [← hcand]
    have : pick_name existing filename = some c := hcsome
    rwa [hcand] at this
  · intro j hj1 hjlt
    have := hbelow (j - 1) (by omega)
    have harith : 1 + (j - 1) = j := by omega
    rwa [harith] at this

/-- C10: if the sanitized filename is not itself taken it is used unchanged,
even when disambiguated variants such as `report (1).txt` already exist; when
it is taken, the chosen disambiguator is the smallest positive integer whose
candidate name is unused (every smaller positive index is taken). -/
theorem pick_name_least_disambiguator (existing : List String) (filename : String) :
    (existing.contains filename = false → pick_name existing filename = some filename) ∧
    (pick_name ["report (1).txt"] "report.txt" = some "report.txt") ∧
    (existing.contains filename = true →
      ∃ i, 1 ≤ i ∧
        pick_name existing filename =
          some (collisionCandidate (splitext filename).1 (splitext filename).2 i) ∧
        existing.contains
          (collisionCandidate (splitext filename).1 (splitext filename).2 i) = false ∧
        ∀ j, 1 ≤ j → j < i →
          existing.contains
            (collisionCandidate (splitext filename).1 (splitext filename).2 j) = true) := by
  refine ⟨?_, by decide, fun hc => pick_name_collision_char hc⟩
  intro h
  unfold pick_name
  rw [if_neg]
  simpa using h

/-- C2: uploading `report.txt` when `report.txt` exists saves as
`report (1).txt`, and uploading again (the saved name now also existing)
saves as `report (2).txt`; in general, once the saved candidate is added to
the directory, the next upload of the same name picks a strictly larger
disambiguator, so the numeric sequence per base name is strictly increasing
across successive uploads. -/
theorem upload_collision_sequence :
    (pick_name ["report.txt"] "report.txt" = some "report (1).txt") ∧
    (pick_name ["report (1).txt", "report.txt"] "report.txt" =
      some "report (2).txt") ∧
    (∀ (existing : List String) (filename : String) (i : Nat),
      existing.contains filename = true →
      pick_name existing filename =
        some (collisionCandidate (splitext filename).1 (splitext filename).2 i) →
      ∀ c, pick_name
          (collisionCandidate (splitext filename).1 (splitext filename).2 i :: existing)
          filename = some c →
        ∃ j, i < j ∧
          c = collisionCandidate (splitext filename).1 (splitext filename).2 j) := by
  refine ⟨by decide, by decide, ?_⟩
  intro existing filename i hc hpick c hpick'
  obtain ⟨i0, hi0ge, hpick0, hfree0, hmin0⟩ := pick_name_collision_char hc
  have hsome : some (collisionCandidate (splitext filename).1 (splitext filename).2 i) =
      some (collisionCandidate (splitext filename).1 (splitext filename).2 i0) :=
    hpick.symm.trans hpick0
  have hii : i = i0 := collisionCandidate_inj (by injection hsome)
  subst hii
  have hc' : (collisionCandidate (splitext filename).1 (splitext filename).2 i ::
      existing).contains filename = true := by
    apply contains_of_mem
    exact List.mem_cons_of_mem _ (mem_of_contains hc)
  obtain ⟨i1, hi1ge, hpick1, hfree1, hmin1⟩ := pick_name_collision_char hc'
  have hceq : c = collisionCandidate (splitext filename).1 (splitext filename).2 i1 := by
    have := hpick'.symm.trans hpick1
    injection this
  refine ⟨i1, ?_, hceq⟩
  by_contra hle
  push_neg at hle
  rcases Nat.lt_or_ge i1 i with hlt | hge
  · have htaken := hmin0 i1 hi1ge hlt
    have : (collisionCandidate (splitext filename).1 (splitext filename).2 i ::
        existing).contains
        (collisionCandidate (splitext filename).1 (splitext filename).2 i1) = true := by
      apply contains_of_mem
      exact List.mem_cons_of_mem _ (mem_of_contains htaken)
    rw [this] at hfree1
    cases hfree1
  · have hieq : i1 = i := by omega
    subst hieq
    have : (collisionCandidate (splitext filename).1 (splitext filename).2 i1 ::
        existing).contains
        (collisionCandidate (splitext filename).1 (splitext filename).2 i1) = true := by
      apply contains_of_mem
      exact List.mem_cons_self _ _
    rw [this] at hfree1
    cases hfree1

/-- Python `str.split()` with no separator: split on runs of whitespace,
dropping empty pieces; `acc` holds the current word reversed. -/
def splitWsAux : List Char → List Char → List (List Char)
  | [], acc => if acc.isEmpty then [] else [acc.reverse]
  | c :: cs, acc =>
    if pyIsSpace c then
      if acc.isEmpty then splitWsAux cs [] else acc.reverse :: splitWsAux cs []
    else splitWsAux cs (c :: acc)

/-- Python `s.split()` (whitespace split) as strings. -/
def pySplitWs (s : String) : List String :=
  (splitWsAux s.data []).map (fun w => (⟨w⟩ : String))

/-- Characters the sanitizer keeps, the regex class `[A-Za-z0-9_.-]`. -/
def keepChar (c : Char) : Bool :=
  c.isAlphanum || c = '_' || c = '.' || c = '-'

/-- Model of `werkzeug.utils.secure_filename` for ASCII filenames on POSIX
(`os.sep = '/'`, `os.path.altsep = None`, `os.name != "nt"` so the Windows
device-file renaming is skipped): replace the path separator by a space,
split on whitespace and join the pieces with underscores, drop every
character outside `[A-Za-z0-9_.-]`, and strip leading and trailing dots and
underscores. (The library first applies NFKD normalization and drops
non-ASCII bytes; that step is the identity on ASCII input and is not
modelled.) -/
def secure_filename (filename : String) : String :=
  let replaced : String := ⟨filename.data.map (fun c => if c = '/' then ' ' else c)⟩
  let joined := "_".intercalate (pySplitWs replaced)
  let kept : String := ⟨joined.data.filter keepChar⟩
  pyStripChars ['.', '_'] kept

/-- HTTP response of the `/upload` handler. `badRequest e` stands for
`jsonify({"ok": False, "error": e}), 400`; `okSaved n` for
`jsonify({"ok": True, "savedAs": n})` (HTTP 200); `hang` marks the
(unreachable) case in which the collision loop never finds a free name and
the handler does not respond. -/
inductive UploadResponse
  | badRequest (error : String)
  | okSaved (savedAs : String)
  | hang
  deriving DecidableEq

/-- HTTP status code of an upload response, when one is produced. -/
def UploadResponse.status : UploadResponse → Option Nat
  | .badRequest _ => some 400
  | .okSaved _ => some 200
  | .hang => none

/-- Upload request as the handler sees it: whether the multipart form has a
`file` field, and when it does, the client-supplied filename of that part
(werkzeug hands the handler a string, possibly empty; `filename` is ignored
when `hasFileField` is false). -/
structure UploadRequest where
  hasFileField : Bool
  filename : String

/-- Embedding of the `upload` handler (server.py): the three validations in
the handler's order — `"file" not in request.files`, `not f.filename`,
`not secure_filename(f.filename)` — then the collision-avoiding choice of
the saved name and the success response. -/
def upload (existing : List String) (req : UploadRequest) : UploadResponse :=
  if req.hasFileField = false then .badRequest "No file field"
  else if req.filename = "" then .badRequest "Empty filename"
  else
    let filename := secure_filename req.filename
    if filename = "" then .badRequest "Invalid filename"
    else
      match pick_name existing filename with
      | some n => .okSaved n
      | none => .hang

/-- C5: the upload fails with HTTP 400 and `ok:false` exactly for the three
validation reasons, checked in the handler's order — `"No file field"` when
the request has no file payload, `"Empty filename"` when the client filename
is the empty string, `"Invalid filename"` when sanitization yields the empty
string — and in every other case no validation error is returned (the upload
succeeds with some saved name). -/
theorem upload_validation_cases (existing : List String) (req : UploadRequest) :
    (upload existing req = .badRequest "No file field" ↔
      req.hasFileField = false) ∧
    (upload existing req = .badRequest "Empty filename" ↔
      req.hasFileField = true ∧ req.filename = "") ∧
    (upload existing req = .badRequest "Invalid filename" ↔
      req.hasFileField = true ∧ req.filename ≠ "" ∧
        secure_filename req.filename = "") ∧
    (∀ e, upload existing req = .badRequest e →
      (upload existing req).status = some 400 ∧
      (e = "No file field" ∨ e = "Empty filename" ∨ e = "Invalid filename")) ∧
    (req.hasFileField = true → req.filename ≠ "" →
      secure_filename req.filename ≠ "" →
      ∃ n, upload existing req = .okSaved n) := by
  have hsucc : req.hasFileField = true → req.filename ≠ "" →
      secure_filename req.filename ≠ "" →
      ∃ n, upload existing req = .okSaved n := by
    intro h1 h2 h3
    obtain ⟨n, hn⟩ := Option.isSome_iff_exists.mp
      (pick_name_isSome existing (secure_filename req.filename))
    refine ⟨n, ?_⟩
    unfold upload
    rw [if_neg (by simp [h1]), if_neg h2, if_neg h3, hn]
  refine ⟨?_, ?_, ?_, ?_, hsucc⟩
  · constructor
    · intro h
      by_contra hf
      have h1 : req.hasFileField = true := by
        cases hx : req.hasFileField with
        | false => exact absurd hx hf
        | true => rfl
      by_cases h2 : req.filename = ""
      · unfold upload at h
        rw [if_neg (by simp [h1]), if_pos h2] at h
        injection h with he
        exact absurd he.symm (by decide)
      · by_cases h3 : secure_filename req.filename = ""
        · unfold upload at h
          rw [if_neg (by simp [h1]), if_neg h2, if_pos h3] at h
          injection h with he
          exact absurd he.symm (by decide)
        · obtain ⟨n, hn⟩ := hsucc h1 h2 h3
          rw [hn] at h
          exact UploadResponse.noConfusion h
    · intro h
      unfold upload
      rw [if_pos h]
  · constructor
    · intro h
      by_cases h1 : req.hasFileField = false
      · unfold upload at h
        rw [if_pos h1] at h
        injection h with he
        exact absurd he.symm (by decide)
      · have h1' : req.hasFileField = true := by
          cases hx : req.hasFileField with
          | false => exact absurd hx h1
          | true => rfl
        refine ⟨h1', ?_⟩
        by_contra h2
        by_cases h3 : secure_filename req.filename = ""
        · unfold upload at h
          rw [if_neg h1, if_neg h2, if_pos h3] at h
          injection h with he
          exact absurd he.symm (by decide)
        · obtain ⟨n, hn⟩ := hsucc h1' h2 h3
          rw [hn] at h
          exact UploadResponse.noConfusion h
    · intro ⟨h1, h2⟩
      unfold upload
      rw [if_neg (by simp [h1]), if_pos h2]
  · constructor
    · intro h
      by_cases h1 : req.hasFileField = false
      · unfold upload at h
        rw [if_pos h1] at h
        injection h with he
        exact absurd he.symm (by decide)
      · have h1' : req.hasFileField = true := by
          cases hx : req.hasFileField with
          | false => exact absurd hx h1
          | true => rfl
        refine ⟨h1', ?_, ?_⟩
        · intro h2
          unfold upload at h
          rw [if_neg h1, if_pos h2] at h
          injection h with he
          exact absurd he.symm (by decide)
        · by_contra h3
          have h2 : req.filename ≠ "" := by
            intro h2
            unfold upload at h
            rw [if_neg h1, if_pos h2] at h
            injection h with he
            exact absurd he.symm (by decide)
          obtain ⟨n, hn⟩ := hsucc h1' h2 h3
          rw [hn] at h
          exact UploadResponse.noConfusion h
    · intro ⟨h1, h2, h3⟩
      unfold upload
      rw [if_neg (by simp [h1]), if_neg h2, if_pos h3]
  · intro e h
    constructor
    · rw [h]; rfl
    · unfold upload at h
      by_cases h1 : req.hasFileField = false
      · rw [if_pos h1] at h
        injection h with he
        exact Or.inl he.symm
      · rw [if_neg h1] at h
        by_cases h2 : req.filename = ""
        · rw [if_pos h2] at h
          injection h with he
          exact Or.inr (Or.inl he.symm)
        · rw [if_neg h2] at h
          by_cases h3 : secure_filename req.filename = ""
          · rw [if_pos h3] at h
            injection h with he
            exact Or.inr (Or.inr he.symm)
          · rw [if_neg h3] at h
            cases hp : pick_name existing (secure_filename req.filename) with
            | none => rw [hp] at h; exact UploadResponse.noConfusion h
            | some n => rw [hp] at h; exact UploadResponse.noConfusion h

/-- One name of `os.listdir(SHARED_DIR)` together with the
`os.path.isfile(os.path.join(SHARED_DIR, name))` answer and the `os.stat`
data the handler reads from the joined path: `st_size` and `int(st_mtime)`.
`os.listdir` yields the direct children only, so no subdirectory is ever
traversed; `isfile` is false for directories and special files. -/
structure DirEntry where
  name : String
  isfile : Bool
  size : Nat
  mtime : Int
  deriving DecidableEq

/-- Listing entry returned by `/api/list`: `{"name", "size", "mtime"}`. -/
structure FileEntry where
  name : String
  size : Nat
  mtime : Int
  deriving DecidableEq

/-- Stable insertion for sorting by descending `mtime`: `x` goes in front of
the first element whose `mtime` does not exceed it, so an element equal on
`mtime` but earlier in the input stays earlier. -/
def insertByMtimeDesc (x : FileEntry) : List FileEntry → List FileEntry
  | [] => [x]
  | y :: ys =>
    if y.mtime ≤ x.mtime then x :: y :: ys
    else y :: insertByMtimeDesc x ys

/-- Stable sort by descending `mtime`: the semantics of Python's
`items.sort(key=lambda x: x["mtime"], reverse=True)` (Python's sort is
stable, and `reverse=True` sorts descending while keeping equal keys in
their original order). -/
def sortByMtimeDesc : List FileEntry → List FileEntry
  | [] => []
  | x :: xs => insertByMtimeDesc x (sortByMtimeDesc xs)

/-- Embedding of `list_shared_files` (server.py): keep the `os.listdir`
entries for which `os.path.isfile` holds, build their listing records in
directory order, then sort by modification time, newest first. -/
def list_shared_files (listing : List DirEntry) : List FileEntry :=
  sortByMtimeDesc ((listing.filter (fun e => e.isfile)).map
    (fun e => ⟨e.name, e.size, e.mtime⟩))

theorem insertByMtimeDesc_perm (x : FileEntry) (l : List FileEntry) :
    (insertByMtimeDesc x l).Perm (x :: l) := by
  induction l with
  | nil => simp [insertByMtimeDesc]
  | cons y ys ih =>
    unfold insertByMtimeDesc
    by_cases h : y.mtime ≤ x.mtime
    · rw [if_pos h]
    · rw [if_neg h]
      exact (ih.cons y).trans (List.Perm.swap x y ys)

theorem sortByMtimeDesc_perm (l : List FileEntry) :
    (sortByMtimeDesc l).Perm l := by
  induction l with
  | nil => simp [sortByMtimeDesc]
  | cons x xs ih =>
    exact (insertByMtimeDesc_perm x (sortByMtimeDesc xs)).trans (ih.cons x)

theorem insertByMtimeDesc_sorted {x : FileEntry} {l : List FileEntry}
    (h : List.Pairwise (fun a b => b.mtime ≤ a.mtime) l) :
    List.Pairwise (fun a b => b.mtime ≤ a.mtime) (insertByMtimeDesc x l) := by
  induction l with
  | nil => simp [insertByMtimeDesc]
  | cons y ys ih =>
    rcases List.pairwise_cons.mp h with ⟨hy, hys⟩
    unfold insertByMtimeDesc
    by_cases hc : y.mtime ≤ x.mtime
    · rw [if_pos hc]
      refine List.pairwise_cons.mpr ⟨?_, h⟩
      intro z hz
      rcases List.mem_cons.mp hz with hz | hz
      · rw [hz]; exact hc
      · exact le_trans (hy z hz) hc
    · rw [if_neg hc]
      refine List.pairwise_cons.mpr ⟨?_, ih hys⟩
      intro z hz
      rcases List.mem_cons.mp ((insertByMtimeDesc_perm x ys).mem_iff.mp hz) with hz | hz
      · rw [hz]; omega
      · exact hy z hz

theorem sortByMtimeDesc_sorted (l : List FileEntry) :
    List.Pairwise (fun a b => b.mtime ≤ a.mtime) (sortByMtimeDesc l) := by
  induction l with
  | nil => simp [sortByMtimeDesc]
  | cons x xs ih => exact insertByMtimeDesc_sorted ih

/-- C9: the listing holds exactly the regular files directly under the shared
directory (directories and special files dropped silently, names, sizes and
mtimes taken from the directory scan), sorted by modification time
descending; concretely, with `a.txt` at mtime 100 and `b.txt` at mtime 200
the listing returns `b.txt` before `a.txt`. -/
theorem list_shared_files_spec (listing : List DirEntry) :
    (list_shared_files listing).Perm
      ((listing.filter (fun e => e.isfile)).map
        (fun e => ⟨e.name, e.size, e.mtime⟩)) ∧
    List.Pairwise (fun a b => b.mtime ≤ a.mtime) (list_shared_files listing) ∧
    list_shared_files
        [⟨"a.txt", true, 5, 100⟩, ⟨"b.txt", true, 7, 200⟩] =
      [⟨"b.txt", 7, 200⟩, ⟨"a.txt", 5, 100⟩] := by
  exact ⟨sortByMtimeDesc_perm _, sortByMtimeDesc_sorted _, by decide⟩

/-- Result record of a finished subprocess as `run_cmd` (server.py) reports
it: exit code, stdout and stderr. -/
structure CmdResult where
  returncode : Int
  stdout : String
  stderr : String

/-- Embedding of `get_windows_wifi_ip` (server.py) as a function of the
PowerShell `Get-NetIPAddress` invocation's outcome: `run_cmd` strips the
raw stdout; the queried address is that output (stripped once more by the
explicit `out.strip()`) when the exit code is 0 and the output is nonempty,
and `None` otherwise. -/
def get_windows_wifi_ip (code : Int) (rawOut : String) : Option String :=
  let out := pyStrip rawOut
  if code = 0 ∧ out ≠ "" then some (pyStrip out) else none

/-- Environment one `run()` invocation observes. `sock_ip` is the result of
the outbound-socket address detection (the body shared by `get_wsl_ip` and
`get_native_ip`: connect a UDP socket toward `8.8.8.8` and read back the
local endpoint); `.error ()` stands for the `OSError` the socket call raises
when there is no route at all, which `run()` does not catch.
`win_wifi_code` / `win_wifi_out` are the exit code and raw stdout of the
PowerShell query issued by `get_windows_wifi_ip`. -/
structure HostEnv where
  qshare_ip : String
  is_wsl : Bool
  sock_ip : Except Unit String
  win_wifi_code : Int
  win_wifi_out : String

/-- Identity-resolution outcome of `run()` at the point just before the mDNS
thread and the HTTP server are started. -/
structure StartupState where
  advertise_ip : String
  wsl_ip : Option String
  portproxy_invoked : Bool
  deriving DecidableEq

/-- Embedding of the address-resolution part of `run()` (server.py):
`advertise_ip = os.environ.get("QSHARE_IP", "").strip()`; on WSL the inner
address is computed first (a socket failure propagates even when an override
is set), then, only when no override was given, the Windows Wi-Fi query
fills `advertise_ip` with `win_ip or wsl_ip`; natively the socket detection
runs only when no override was given. `ensure_windows_portproxy` is invoked
exactly when, on WSL, the advertised address differs from the inner one. -/
def run_resolve (env : HostEnv) : Except Unit StartupState :=
  let advertise0 := pyStrip env.qshare_ip
  if env.is_wsl then
    match env.sock_ip with
    | .error e => .error e
    | .ok wsl_ip =>
      let advertise_ip :=
        if advertise0 = "" then
          match get_windows_wifi_ip env.win_wifi_code env.win_wifi_out with
          | some win_ip => if win_ip = "" then wsl_ip else win_ip
          | none => wsl_ip
        else advertise0
      .ok ⟨advertise_ip, some wsl_ip, advertise_ip != wsl_ip⟩
  else
    if advertise0 = "" then
      match env.sock_ip with
      | .error e => .error e
      | .ok ip => .ok ⟨ip, none, false⟩
    else
      .ok ⟨advertise0, none, false⟩

/-- Numeric value of a run of decimal digit characters. -/
def digitsVal (l : List Char) : Nat := l.foldl decimalStep 0

/-- Split on every `'.'`, keeping empty pieces, like Python `s.split(".")`;
`acc` holds the current piece reversed. -/
def splitOnDot : List Char → List Char → List String
  | [], acc => [⟨acc.reverse⟩]
  | c :: cs, acc =>
    if c = '.' then (⟨acc.reverse⟩ : String) :: splitOnDot cs []
    else splitOnDot cs (c :: acc)

/-- Decimal octet of a dotted-quad address: nonempty, at most three digits,
all digits, value at most 255. -/
def ipv4Octet (s : String) : Bool :=
  !s.data.isEmpty && s.data.length ≤ 3 &&
    s.data.all (fun c => c.isDigit) && digitsVal s.data ≤ 255

/-- Written from the spec's words for the `AdvertiseTarget` invariant, which
has no counterpart in the code: the advertised `ip` is a syntactically valid
dotted-quad IPv4 address that is unicast (first octet below the multicast
range), never a loopback address (first octet 127) and never `0.0.0.0`. -/
def specAdvertiseIpInvariant (ip : String) : Bool :=
  match splitOnDot ip.data [] with
  | [a, b, c, d] =>
    ipv4Octet a && ipv4Octet b && ipv4Octet c && ipv4Octet d &&
      digitsVal a.data < 224 && digitsVal a.data ≠ 127 && ip ≠ "0.0.0.0"
  | _ => false

/-- C4 counterexample: startup completes with the explicit override
`QSHARE_IP="0.0.0.0"` used verbatim as the advertise address, and `0.0.0.0`
violates the claimed invariant, so the invariant does not hold for every
startup that completes. -/
theorem advertise_ip_invariant_cex :
    run_resolve ⟨"0.0.0.0", false, .ok "192.168.1.7", 1, ""⟩ =
      .ok ⟨"0.0.0.0", none, false⟩ ∧
    specAdvertiseIpInvariant "0.0.0.0" = false ∧
    specAdvertiseIpInvariant "192.168.1.7" = true :=
  ⟨rfl, by decide, by decide⟩

/-- C4 amended: the code never validates the advertise address; whenever
startup completes, the address is verbatim one of its three sources — the
stripped override when that is nonempty, else on WSL the Windows Wi-Fi query
output or the inner socket-detected address, else the socket-detected
address — with no loopback, `0.0.0.0` or syntax check applied. -/
theorem advertise_ip_unvalidated (env : HostEnv) (st : StartupState)
    (h : run_resolve env = .ok st) :
    (pyStrip env.qshare_ip ≠ "" ∧ st.advertise_ip = pyStrip env.qshare_ip) ∨
    (pyStrip env.qshare_ip = "" ∧ env.is_wsl = true ∧
      (get_windows_wifi_ip env.win_wifi_code env.win_wifi_out =
          some st.advertise_ip ∨
        env.sock_ip = .ok st.advertise_ip)) ∨
    (pyStrip env.qshare_ip = "" ∧ env.is_wsl = false ∧
      env.sock_ip = .ok st.advertise_ip) := by
  unfold run_resolve at h
  by_cases hov : pyStrip env.qshare_ip = ""
  · by_cases hw : env.is_wsl = true
    · rw [if_pos hw] at h
      cases hs : env.sock_ip with
      | error e => rw [hs] at h; exact Except.noConfusion h
      | ok wsl_ip =>
        rw [hs] at h
        dsimp only at h
        rw [if_pos hov] at h
        cases hq : get_windows_wifi_ip env.win_wifi_code env.win_wifi_out with
        | none =>
          rw [hq] at h
          dsimp only at h
          injection h with h'
          refine Or.inr (Or.inl ⟨hov, hw, Or.inr ?_⟩)
          rw [← h']
        | some win_ip =>
          rw [hq] at h
          dsimp only at h
          by_cases hwe : win_ip = ""
          · rw [if_pos hwe] at h
            injection h with h'
            refine Or.inr (Or.inl ⟨hov, hw, Or.inr ?_⟩)
            rw [← h']
          · rw [if_neg hwe] at h
            injection h with h'
            refine Or.inr (Or.inl ⟨hov, hw, Or.inl ?_⟩)
            have ha : st.advertise_ip = win_ip := by rw [← h']
            rw [ha]
    · have hw' : env.is_wsl = false := by
        cases hx : env.is_wsl with
        | false => rfl
        | true => exact absurd hx hw
      rw [if_neg (by simp [hw'])] at h
      rw [if_pos hov] at h
      cases hs : env.sock_ip with
      | error e => rw [hs] at h; exact Except.noConfusion h
      | ok ip =>
        rw [hs] at h
        dsimp only at h
        injection h with h'
        refine Or.inr (Or.inr ⟨hov, hw', ?_⟩)
        rw [← h']
  · left
    refine ⟨hov, ?_⟩
    by_cases hw : env.is_wsl = true
    · rw [if_pos hw] at h
      cases hs : env.sock_ip with
      | error e => rw [hs] at h; exact Except.noConfusion h
      | ok wsl_ip =>
        rw [hs] at h
        dsimp only at h
        rw [if_neg hov] at h
        injection h with h'
        rw [← h']
    · rw [if_neg hw, if_neg hov] at h
      injection h with h'
      rw [← h']

/-- C4 amended witness: concrete run with the override `"0.0.0.0"`. -/
theorem advertise_ip_unvalidated_witness :
    (pyStrip "0.0.0.0" ≠ "" ∧
      (⟨"0.0.0.0", none, false⟩ : StartupState).advertise_ip =
        pyStrip "0.0.0.0") ∨
    (pyStrip "0.0.0.0" = "" ∧ (false : Bool) = true ∧
      (get_windows_wifi_ip 1 "" = some
          (⟨"0.0.0.0", none, false⟩ : StartupState).advertise_ip ∨
        (Except.ok "192.168.1.7" : Except Unit String) =
          .ok (⟨"0.0.0.0", none, false⟩ : StartupState).advertise_ip)) ∨
    (pyStrip "0.0.0.0" = "" ∧ (false : Bool) = false ∧
      (Except.ok "192.168.1.7" : Except Unit String) =
        .ok (⟨"0.0.0.0", none, false⟩ : StartupState).advertise_ip) :=
  advertise_ip_unvalidated ⟨"0.0.0.0", false, .ok "192.168.1.7", 1, ""⟩
    ⟨"0.0.0.0", none, false⟩ rfl

/-- C6 counterexample: the override `" "` is a non-empty string, yet startup
in the native environment advertises the socket-detected `"1.2.3.4"`, not
the override verbatim — `run()` strips the override before testing it. -/
theorem override_verbatim_cex :
    run_resolve ⟨" ", false, .ok "1.2.3.4", 1, ""⟩ =
      .ok ⟨"1.2.3.4", none, false⟩ ∧
    (" " : String) ≠ "" ∧ ("1.2.3.4" : String) ≠ " " :=
  ⟨rfl, by decide, by decide⟩

/-- C6 amended: for every override whose whitespace-stripped value is
non-empty, whenever startup completes the stripped override is used verbatim
as the advertise address, in the nested (WSL) and native environments alike;
in particular `QSHARE_IP="10.0.0.5"` advertises `10.0.0.5` in both. -/
theorem override_strip_verbatim (env : HostEnv) (st : StartupState)
    (hov : pyStrip env.qshare_ip ≠ "")
    (h : run_resolve env = .ok st) :
    st.advertise_ip = pyStrip env.qshare_ip := by
  unfold run_resolve at h
  by_cases hw : env.is_wsl = true
  · rw [if_pos hw] at h
    cases hs : env.sock_ip with
    | error e => rw [hs] at h; exact Except.noConfusion h
    | ok wsl_ip =>
      rw [hs] at h
      dsimp only at h
      rw [if_neg hov] at h
      injection h with h'
      rw [← h']
  · rw [if_neg hw, if_neg hov] at h
    injection h with h'
    rw [← h']

/-- C6 amended witness: a concrete run with `QSHARE_IP="10.0.0.5"` in the
WSL environment advertises the stripped override. -/
theorem override_strip_verbatim_witness :
    (⟨"10.0.0.5", some "172.17.0.2", true⟩ : StartupState).advertise_ip =
      pyStrip "10.0.0.5" :=
  override_strip_verbatim ⟨"10.0.0.5", true, .ok "172.17.0.2", 0, "192.168.1.7"⟩
    ⟨"10.0.0.5", some "172.17.0.2", true⟩ (by decide) rfl

/-- C7: a failure of the outbound-socket address detection propagates out of
`run()` (fatal startup error) whenever the detection is invoked — always on
WSL, and natively whenever no override is set; whereas on WSL with no
override, a failed or empty Windows Wi-Fi query is non-fatal and resolution
falls back to advertising the inner (socket-detected) address. -/
theorem socket_fatal_wifi_fallback (env : HostEnv) :
    ((env.is_wsl = true ∨ pyStrip env.qshare_ip = "") →
      env.sock_ip = .error () → run_resolve env = .error ()) ∧
    (∀ wsl_ip, env.is_wsl = true → pyStrip env.qshare_ip = "" →
      env.sock_ip = .ok wsl_ip →
      get_windows_wifi_ip env.win_wifi_code env.win_wifi_out = none →
      ∃ st, run_resolve env = .ok st ∧ st.advertise_ip = wsl_ip) := by
  constructor
  · intro hinv hs
    unfold run_resolve
    by_cases hw : env.is_wsl = true
    · rw [if_pos hw, hs]
    · have hov : pyStrip env.qshare_ip = "" := by
        rcases hinv with hinv | hinv
        · exact absurd hinv hw
        · exact hinv
      rw [if_neg hw, if_pos hov, hs]
  · intro wsl_ip hw hov hs hq
    refine ⟨⟨wsl_ip, some wsl_ip, wsl_ip != wsl_ip⟩, ?_, rfl⟩
    unfold run_resolve
    rw [if_pos hw, hs]
    dsimp only
    rw [if_pos hov, hq]

/-- C7 witness: concrete instances of both halves — a native run with no
override and no route fails, and a WSL run with no override and a failed
Wi-Fi query (exit code 1) falls back to the inner address `172.17.0.2`. -/
theorem socket_fatal_wifi_fallback_witness :
    (run_resolve ⟨"", false, .error (), 1, ""⟩ = .error ()) ∧
    (∃ st, run_resolve ⟨"", true, .ok "172.17.0.2", 1, ""⟩ = .ok st ∧
      st.advertise_ip = "172.17.0.2") :=
  ⟨(socket_fatal_wifi_fallback ⟨"", false, .error (), 1, ""⟩).1
      (Or.inr (by decide)) rfl,
    (socket_fatal_wifi_fallback ⟨"", true, .ok "172.17.0.2", 1, ""⟩).2
      "172.17.0.2" rfl (by decide) rfl (by decide)⟩

/-- Exact delete command string built in `ensure_windows_portproxy`. -/
def portproxy_del_cmd (listen_ip : String) (listen_port : Nat) : String :=
  "netsh interface portproxy delete v4tov4 listenport=" ++ natStr listen_port ++
    " listenaddress=" ++ listen_ip

/-- Exact add-forward command string built in `ensure_windows_portproxy`. -/
def portproxy_add_cmd (listen_ip : String) (listen_port : Nat)
    (wsl_ip : String) (wsl_port : Nat) : String :=
  "netsh interface portproxy add v4tov4 listenport=" ++ natStr listen_port ++
    " listenaddress=" ++ listen_ip ++ " connectport=" ++ natStr wsl_port ++
    " connectaddress=" ++ wsl_ip

/-- Exact firewall allow-rule command string built in
`ensure_windows_portproxy`. -/
def firewall_add_cmd (listen_port : Nat) : String :=
  "netsh advfirewall firewall add rule name=\"QShare " ++ natStr listen_port ++
    "\" dir=in action=allow protocol=TCP localport=" ++ natStr listen_port

/-- Outcome of one `ensure_windows_portproxy` call: `ok` is whether the
success line was printed (as opposed to the manual-remediation block);
`manual_commands` are the command strings printed for manual elevated
execution; `issued` are the PowerShell commands actually run, in order. -/
structure ProvisionOutcome where
  ok : Bool
  manual_commands : List String
  issued : List String
  deriving DecidableEq

/-- Embedding of `ensure_windows_portproxy` (server.py). `runPs cmd` is the
result of `subprocess.run(["powershell.exe", "-NoProfile", "-Command", cmd])`.
The delete command runs first with its result discarded, then the add and
firewall commands run unconditionally; a nonzero exit of either of the last
two selects the failure branch, which prints the three command strings for
manual elevated execution; otherwise a success line is printed. The function
returns `None` either way and raises nothing, so the caller always
continues. -/
def ensure_windows_portproxy (runPs : String → CmdResult) (listen_ip : String)
    (listen_port : Nat) (wsl_ip : String) (wsl_port : Nat) : ProvisionOutcome :=
  let del_cmd := portproxy_del_cmd listen_ip listen_port
  let add_cmd := portproxy_add_cmd listen_ip listen_port wsl_ip wsl_port
  let fw_cmd := firewall_add_cmd listen_port
  let _del := runPs del_cmd
  let add := runPs add_cmd
  let fw := runPs fw_cmd
  if add.returncode ≠ 0 ∨ fw.returncode ≠ 0 then
    ⟨false, [del_cmd, add_cmd, fw_cmd], [del_cmd, add_cmd, fw_cmd]⟩
  else
    ⟨true, [], [del_cmd, add_cmd, fw_cmd]⟩

/-- Trace of one `run()` startup past address resolution: the resolved
state, the provisioner outcome when it was invoked, and the fact that the
mDNS thread and HTTP server are started. -/
structure RunTrace where
  startup : StartupState
  provision : Option ProvisionOutcome
  server_started : Bool
  deriving DecidableEq

/-- Embedding of `run()` (server.py) after address resolution: on the WSL
branch `ensure_windows_portproxy(advertise_ip, port, wsl_ip, port)` is
invoked exactly when the advertised address differs from the inner one, and
regardless of its outcome the mDNS thread is started and `app.run` is
entered. -/
def run_full (env : HostEnv) (runPs : String → CmdResult) (port : Nat) :
    Except Unit RunTrace :=
  match run_resolve env with
  | .error e => .error e
  | .ok st =>
    let provision :=
      if st.portproxy_invoked then
        some (ensure_windows_portproxy runPs st.advertise_ip port
          (st.wsl_ip.getD "") port)
      else none
    .ok ⟨st, provision, true⟩

/-- C8: the provisioner always issues the delete command first (its result
ignored: the outcome is unchanged under any reply to it), then the add and
firewall commands — each exactly once, so no retry; it reports failure
exactly when the add or the firewall command exits nonzero, and then its
manual commands are exactly the three literal `netsh` strings; on success it
reports `ok` with no manual commands; and whatever the provisioner's
outcome, startup proceeds. -/
theorem portproxy_provisioner_spec (runPs : String → CmdResult)
    (listen_ip : String) (listen_port : Nat) (wsl_ip : String)
    (wsl_port : Nat) :
    ((ensure_windows_portproxy runPs listen_ip listen_port wsl_ip
        wsl_port).issued =
      [portproxy_del_cmd listen_ip listen_port,
        portproxy_add_cmd listen_ip listen_port wsl_ip wsl_port,
        firewall_add_cmd listen_port]) ∧
    (∀ runPs' : String → CmdResult,
      runPs' (portproxy_add_cmd listen_ip listen_port wsl_ip wsl_port) =
        runPs (portproxy_add_cmd listen_ip listen_port wsl_ip wsl_port) →
      runPs' (firewall_add_cmd listen_port) =
        runPs (firewall_add_cmd listen_port) →
      ensure_windows_portproxy runPs' listen_ip listen_port wsl_ip wsl_port =
        ensure_windows_portproxy runPs listen_ip listen_port wsl_ip
          wsl_port) ∧
    ((ensure_windows_portproxy runPs listen_ip listen_port wsl_ip
        wsl_port).ok = false ↔
      (runPs (portproxy_add_cmd listen_ip listen_port wsl_ip
          wsl_port)).returncode ≠ 0 ∨
      (runPs (firewall_add_cmd listen_port)).returncode ≠ 0) ∧
    ((ensure_windows_portproxy runPs listen_ip listen_port wsl_ip
        wsl_port).ok = false →
      (ensure_windows_portproxy runPs listen_ip listen_port wsl_ip
        wsl_port).manual_commands =
        [portproxy_del_cmd listen_ip listen_port,
          portproxy_add_cmd listen_ip listen_port wsl_ip wsl_port,
          firewall_add_cmd listen_port]) ∧
    ((ensure_windows_portproxy runPs listen_ip listen_port wsl_ip
        wsl_port).ok = true →
      (ensure_windows_portproxy runPs listen_ip listen_port wsl_ip
        wsl_port).manual_commands = []) ∧
    (∀ (env : HostEnv) (st : StartupState), run_resolve env = .ok st →
      ∃ pr, run_full env runPs listen_port = .ok ⟨st, pr, true⟩) := by
  by_cases hfail : (runPs (portproxy_add_cmd listen_ip listen_port wsl_ip
      wsl_port)).returncode ≠ 0 ∨
      (runPs (firewall_add_cmd listen_port)).returncode ≠ 0
  · refine ⟨?_, ?_, ?_, ?_, ?_, ?_⟩
    · unfold ensure_windows_portproxy
      rw [if_pos hfail]
    · intro runPs' hadd hfw
      unfold ensure_windows_portproxy
      dsimp only
      rw [hadd, hfw]
    · unfold ensure_windows_portproxy
      rw [if_pos hfail]
      simpa using hfail
    · intro _
      unfold ensure_windows_portproxy
      rw [if_pos hfail]
    · intro hok
      unfold ensure_windows_portproxy at hok
      rw [if_pos hfail] at hok
      simp at hok
    · intro env st h
      unfold run_full
      rw [h]
      exact ⟨_, rfl⟩
  · refine ⟨?_, ?_, ?_, ?_, ?_, ?_⟩
    · unfold ensure_windows_portproxy
      rw [if_neg hfail]
    · intro runPs' hadd hfw
      unfold ensure_windows_portproxy
      dsimp only
      rw [hadd, hfw]
    · unfold ensure_windows_portproxy
      rw [if_neg hfail]
      simpa using hfail
    · intro hok
      unfold ensure_windows_portproxy at hok
      rw [if_neg hfail] at hok
      simp at hok
    · intro _
      unfold ensure_windows_portproxy
      rw [if_neg hfail]
    · intro env st h
      unfold run_full
      rw [h]
      exact ⟨_, rfl⟩

/-- Zeroconf calls `register_mdns_service` can make. -/
inductive MdnsAction
  | registerService
  | unregisterService
  | closeZeroconf
  deriving DecidableEq

/-- How the broadcaster's endless `while True: time.sleep(1)` loop ends:
either a `KeyboardInterrupt` is raised inside the thread running the
function, or the thread is abruptly terminated at interpreter shutdown
(what happens to a daemon thread when the process exits). -/
inductive BroadcastEnd
  | interrupted
  | daemonKilled
  deriving DecidableEq

/-- Trace of zeroconf calls in `register_mdns_service` (server.py): it
registers the service and sleeps forever; only when a `KeyboardInterrupt` is
raised inside the function do its `except`/`finally` blocks run
`unregister_service` and `close`. A daemon thread abruptly stopped at
interpreter shutdown executes no further statements, so in that ending
neither cleanup call runs. -/
def register_mdns_service_trace : BroadcastEnd → List MdnsAction
  | .interrupted => [.registerService, .unregisterService, .closeZeroconf]
  | .daemonKilled => [.registerService]

/-- The `daemon=True` flag `run()` passes when starting the broadcaster
thread (server.py line 237). -/
def broadcaster_daemon_flag : Bool := true

/-- How the broadcaster thread ends when the process is interrupted: CPython
delivers the SIGINT `KeyboardInterrupt` to the main thread (which is inside
`app.run`), and because the broadcaster thread was started with
`daemon=True` it is abruptly terminated when the main thread exits — no
`KeyboardInterrupt` ever reaches `register_mdns_service` itself. -/
def broadcaster_end_on_interrupt : BroadcastEnd := .daemonKilled

/-- C3 (evaluation at the failing input): on an interrupt the broadcaster
thread, being a daemon thread, is killed with only the registration
performed — `unregister_service` and `close` are never reached — while the
in-function cleanup path (the one the claim describes) would run them; the
record therefore stays advertised when the process exits on SIGINT. -/
theorem mdns_unregister_skipped_on_interrupt :
    broadcaster_daemon_flag = true ∧
    register_mdns_service_trace broadcaster_end_on_interrupt =
      [.registerService] ∧
    MdnsAction.unregisterService ∉
      register_mdns_service_trace broadcaster_end_on_interrupt ∧
    register_mdns_service_trace .interrupted =
      [.registerService, .unregisterService, .closeZeroconf] := by
  refine ⟨rfl, rfl, ?_, rfl⟩
  decide

end QShare
